import Mathlib

/-!
Shallow embedding of the OWASP Amass v4 source-plugin pipeline
(engine/plugins: duckduckgo, crt.sh, chaos, securitytrails, sitedossier
scrape plugins and the rdap autnum handler), together with models of the
support-layer collaborators (TTL gate, freshness records, scope filter,
serialized mutation queue) taken from the specification where the support
code itself is not part of the analysed sources.

Every pipeline entry point is embedded as a pure function that, besides its
result, returns the trace of externally visible actions it performed
(rate-limiter acquisitions, HTTP retrievals, scope-filter queries, TTL
lookups, freshness-record reads/writes, store submissions, mutation-queue
submissions, and finding emissions), so that frame properties ("no external
retrieval happened on this path") become statements about the trace.

Go string primitives (`strings.ToLower`, `strings.TrimSpace`,
`strings.Split`, `strings.EqualFold`) are embedded as structurally
recursive functions over the character list of a string, so that every
definition evaluates inside the kernel.
-/

/-! ## Go string primitives -/

/-- ASCII lowercasing of one character (the case folding relevant to DNS names). -/
def goLowerChar (c : Char) : Char :=
  if 65 ≤ c.toNat ∧ c.toNat ≤ 90 then Char.ofNat (c.toNat + 32) else c

/-- Go `strings.ToLower`, restricted to ASCII case folding. -/
def goToLower (s : String) : String := String.mk (s.data.map goLowerChar)

/-- Whitespace as recognized by Go `unicode.IsSpace`, restricted to the ASCII
space characters. -/
def isSpaceChar (c : Char) : Bool :=
  c.toNat == 32 || c.toNat == 9 || c.toNat == 10 || c.toNat == 13

/-- Drop leading whitespace characters. -/
def dropSpaces : List Char → List Char
  | [] => []
  | c :: cs => if isSpaceChar c then dropSpaces cs else c :: cs

/-- Go `strings.TrimSpace`: remove leading and trailing whitespace. -/
def goTrimSpace (s : String) : String :=
  String.mk ((dropSpaces (dropSpaces s.data).reverse).reverse)

/-- Go `strings.EqualFold`, restricted to ASCII case folding. -/
def eqFold (a b : String) : Bool := goToLower a == goToLower b

/-- Helper of `goSplitNL`: accumulate the current field (reversed). -/
def splitNLAux : List Char → List Char → List String
  | [], acc => [String.mk acc.reverse]
  | c :: cs, acc =>
    if c == '\n' then String.mk acc.reverse :: splitNLAux cs []
    else splitNLAux cs (c :: acc)

/-- Go `strings.Split(s, "\n")`. -/
def goSplitNL (s : String) : List String := splitNLAux s.data []

/-- Modelled from the spec: `utils/net/dns.RemoveAsteriskLabel` is not among the
analysed sources; the spec calls it wildcard-label stripping, so the model
removes a leading DNS wildcard label. -/
def removeAsteriskLabel (s : String) : String :=
  match s.data with
  | '*' :: '.' :: rest => String.mk rest
  | _ => s

/-! ## Data model -/

/-- Open Asset Model assets used by the analysed plugins. -/
inductive OAMAsset where
  | fqdn (name : String)
  | url (raw : String)
  | contactRecord (discoveredAt : String)
  | autnumRecord (handle : String) (whoisServer : String)
  | other
deriving DecidableEq

/-- The `AssetType()` of an open-asset-model asset, as the string constants used
by the plugins (`oam.FQDN`, `oam.URL`, `oam.ContactRecord`, `oam.AutnumRecord`). -/
def OAMAsset.assetType : OAMAsset → String
  | .fqdn _ => "FQDN"
  | .url _ => "URL"
  | .contactRecord _ => "ContactRecord"
  | .autnumRecord _ _ => "AutnumRecord"
  | .other => "Other"

/-- An outbound HTTP request (`utils/net/http.Request`): URL plus headers. -/
structure HRequest where
  url : String
  header : List (String × String)
deriving DecidableEq

/-- An HTTP response (`utils/net/http.Response`): only the body is consumed. -/
structure HResponse where
  body : String
deriving DecidableEq

/-- The answer of the Scope Filter (`Session().Scope().IsAssetInScope`):
the canonical asset (or none, for Go's nil) and a confidence. -/
structure ScopeResult where
  canonical : Option OAMAsset
  conf : Nat

/-- Externally visible actions a pipeline invocation can perform. -/
inductive Act where
  | take
  | fetch (url : String)
  | scopeQuery (name : String)
  | ttlLookup (subjKind evKind srcName : String)
  | monitorCheck (subject srcName : String)
  | markMonitored (subject srcName : String)
  | submitStore (names : List String) (srcName : String)
  | dbSubmit
  | emit (names : List String)
deriving DecidableEq

def Act.isFetch : Act → Bool
  | .fetch _ => true
  | _ => false

def Act.isTake : Act → Bool
  | .take => true
  | _ => false

def Act.isStoreSubmit : Act → Bool
  | .submitStore _ _ => true
  | _ => false

def Act.isMark : Act → Bool
  | .markMonitored _ _ => true
  | _ => false

def Act.isDbSubmit : Act → Bool
  | .dbSubmit => true
  | _ => false

def Act.isEmit : Act → Bool
  | .emit _ => true
  | _ => false

/-- Any action that submits a graph mutation (freshness-record write, store
submission, or a closure handed to the serialized mutation queue). -/
def Act.isMutationAct (a : Act) : Bool :=
  a.isMark || a.isStoreSubmit || a.isDbSubmit

/-- The scope-filter values consulted in a trace, in order. -/
def scopeVals (tr : List Act) : List String :=
  tr.filterMap (fun a => match a with | Act.scopeQuery n => some n | _ => none)

/-- The URLs retrieved in a trace, in order. -/
def fetchedUrls (tr : List Act) : List String :=
  tr.filterMap (fun a => match a with | Act.fetch u => some u | _ => none)

/-- The environment one pipeline invocation runs in: the session collaborators
(scope filter, configuration, graph-backed oracles) plus the freshness edges. -/
structure Session where
  /-- Scope Filter: `IsAssetInScope` on an FQDN name. -/
  scope : String → ScopeResult
  /-- TTL policy from configuration, keyed by (subjectKind, evidenceKind, sourceName);
  `none` models a missing policy. -/
  ttl : String → String → String → Option Nat
  /-- `Config().GetDataSourceConfig(name)`: `none` when the data source is absent,
  otherwise the credential list (each credential an optional API key). -/
  dsCreds : String → Option (List (Option String))
  /-- Modelled from the spec: `support.GetSource` resolves/creates the persisted
  source node by name; `false` models the failure case. -/
  srcAvail : String → Bool
  /-- External retrieval oracle: `none` models a transport error. -/
  http : HRequest → Option HResponse
  /-- `support.ScrapeSubdomainNames` on a response body (parsing oracle). -/
  scrapeNames : String → List String
  /-- JSON parse oracle for bodies shaped like a subdomains object
  (chaos and securitytrails); `none` models an unmarshal error. -/
  parseSubdomains : String → Option (List String)
  /-- JSON parse oracle for the crt.sh certs array: the `name_value` string of
  each certificate; `none` models an unmarshal error. -/
  parseCertNames : String → Option (List String)
  /-- Modelled from the spec: `support.SourceToAssetsWithinTTL` returns the
  previously persisted assets of the requested kind linked to the subject via
  this source at or after the freshness threshold (a pure graph read). -/
  lookupAssets : String → String → String → Nat → List String
  /-- The persisted subject→source freshness edges: (subject, source name, timestamp). -/
  monitored : List (String × String × Nat)
  /-- The current time. -/
  now : Nat

/-- Modelled from the spec: `support.TTLStartTime` resolves the TTL policy for
(subjectKind, evidenceKind, sourceName) and returns `now - ttl`; a missing
policy is the error case. -/
def ttlStartTime (s : Session) (subjKind evKind srcName : String) : Option Nat :=
  (s.ttl subjKind evKind srcName).map (fun t => s.now - t)

/-- Modelled from the spec: `support.AssetMonitoredWithinTTL` — the subject is
freshly monitored by the source iff a subject→source edge exists with
timestamp at or after `since`. -/
def assetMonitoredWithinTTL (s : Session) (subject srcName : String) (since : Nat) : Bool :=
  s.monitored.any (fun e => e.1 == subject && e.2.1 == srcName && Nat.ble since e.2.2)

/-- Modelled from the spec: `support.MarkAssetMonitored` records/refreshes the
subject→source freshness edge with the current time. -/
def markAssetMonitored (s : Session) (subject srcName : String) :
    List (String × String × Nat) :=
  (subject, srcName, s.now) :: s.monitored

/-- Modelled from the spec: `support.StoreFQDNsWithSource` persists the given
FQDN names under the subject via the source node and returns the persisted
assets (identified here by their names). -/
def storeFQDNsWithSource (names : List String) : List String := names

/-- Insertion into a `caffix/stringset` set: add the string when absent. The set is
modelled as an insertion-ordered duplicate-free list (the source's `Slice`
guarantees no order). -/
def ssInsert (l : List String) (x : String) : List String :=
  if x ∈ l then l else l ++ [x]

/-- The result of a plugin `check` callback: the returned error (`Except.ok`
for Go's nil), the action trace, and the freshness edges afterwards. -/
abbrev CheckOut := Except String Unit × List Act × List (String × String × Nat)

/-- The second scope guard of every FQDN plugin check
(`f, ok := a.(*domain.FQDN); !ok || f == nil || !strings.EqualFold(...)`,
negated): the canonical asset is a non-nil FQDN matching the subject
case-insensitively. -/
def canonicalFqdnMatches (fname : String) : Option OAMAsset → Bool
  | some (OAMAsset.fqdn m) => eqFold fname m
  | _ => false

/-- The two-stage scope guard shared by every FQDN plugin check: the subject
passes iff the Scope Filter returns positive confidence and a non-nil
canonical asset that is an FQDN matching the subject case-insensitively. -/
def scopeAccepts (s : Session) (n : String) : Bool :=
  !((s.scope n).conf == 0 || (s.scope n).canonical.isNone) &&
    canonicalFqdnMatches n (s.scope n).canonical

/-- An `Act.emit` when the batch is non-empty, mirroring
`if len(names) > 0` before `process`. -/
def emitIfAny (names : List String) : List Act :=
  if names.isEmpty then [] else [Act.emit names]

/-! ## DuckDuckGo (scrape/duckduckgo.go) -/

def ddgURL (name : String) : String :=
  "https://html.duckduckgo.com/html/?q=site:" ++ name ++ " -site:www." ++ name

/-- Loop body of `duckDuckGo.query` over one scraped subdomain name:
normalize, consult the scope filter, and insert survivors into the set. -/
def ddgProcess (s : Session) (acc : List String × List Act) (n : String) :
    List String × List Act :=
  let nstr := goToLower (goTrimSpace n)
  let tr := acc.2 ++ [Act.scopeQuery nstr]
  if 0 < (s.scope nstr).conf then (ssInsert acc.1 nstr, tr) else (acc.1, tr)

/-- Embedding of `duckDuckGo.query`: one rate-limited retrieval; on error or empty body it
returns no assets (without reaching the store step); otherwise it scrapes,
normalizes, scope-filters, dedups, and stores. -/
def duckDuckGoQuery (s : Session) (name srcName : String) :
    List String × List Act :=
  let tr : List Act := [Act.take, Act.fetch (ddgURL name)]
  match s.http ⟨ddgURL name, []⟩ with
  | none => ([], tr)
  | some resp =>
    if resp.body == "" then ([], tr)
    else
      let (subs, tr2) := (s.scrapeNames resp.body).foldl (ddgProcess s) ([], tr)
      (storeFQDNsWithSource subs, tr2 ++ [Act.submitStore subs srcName])

/-- Embedding of `duckDuckGo.check`: the full pipeline invocation for one FQDN event. -/
def duckDuckGoCheck (s : Session) (asset : OAMAsset) : CheckOut :=
  match asset with
  | OAMAsset.fqdn fname =>
    let tr0 := [Act.scopeQuery fname]
    let sr := s.scope fname
    if sr.conf == 0 || sr.canonical.isNone then (Except.ok (), tr0, s.monitored)
    else if !canonicalFqdnMatches fname sr.canonical then (Except.ok (), tr0, s.monitored)
    else if !s.srcAvail "DuckDuckGo" then
            (Except.error "failed to obtain the plugin source information", tr0, s.monitored)
          else
            let tr1 := tr0 ++ [Act.ttlLookup "FQDN" "FQDN" "DuckDuckGo"]
            match ttlStartTime s "FQDN" "FQDN" "DuckDuckGo" with
            | none => (Except.error "config ttl missing", tr1, s.monitored)
            | some since =>
              let tr2 := tr1 ++ [Act.monitorCheck fname "DuckDuckGo"]
              if assetMonitoredWithinTTL s fname "DuckDuckGo" since then
                let names := s.lookupAssets fname "FQDN" "DuckDuckGo" since
                (Except.ok (), tr2 ++ emitIfAny names, s.monitored)
              else
                let (names, qtr) := duckDuckGoQuery s fname "DuckDuckGo"
                let tr3 := tr2 ++ qtr ++ [Act.markMonitored fname "DuckDuckGo"]
                (Except.ok (), tr3 ++ emitIfAny names,
                  markAssetMonitored s fname "DuckDuckGo")
  | _ => (Except.error "failed to extract the FQDN asset", [], s.monitored)

/-! ## crt.sh (api/crtsh.go)

The `crtsh` plugin is constructed with `name: "crt.sh"` but a source node
named `"HackerTarget"` with confidence 100 (`NewCrtsh`). -/

def crtshName : String := "crt.sh"

def crtshSourceName : String := "HackerTarget"

def crtshURL (name : String) : String :=
  "https://crt.sh/?CN=" ++ name ++ "&output=json&exclude=expired"

/-- Loop body of `crtsh.query` over one certificate name: strip the wildcard
label, normalize, consult the scope filter, and append survivors (a plain
slice append, no dedup collection). -/
def crtshProcess (s : Session) (acc : List String × List Act) (n : String) :
    List String × List Act :=
  let nstr := goToLower (goTrimSpace (removeAsteriskLabel n))
  let tr := acc.2 ++ [Act.scopeQuery nstr]
  if 0 < (s.scope nstr).conf then (acc.1 ++ [nstr], tr) else (acc.1, tr)

/-- Embedding of `crtsh.query`: one rate-limited retrieval; on transport or unmarshal error
it returns no assets (without reaching the store step); otherwise every
certificate's `name_value` is split on newlines and each name is processed. -/
def crtshQuery (s : Session) (name srcName : String) :
    List String × List Act :=
  let tr : List Act := [Act.take, Act.fetch (crtshURL name)]
  match s.http ⟨crtshURL name, []⟩ with
  | none => ([], tr)
  | some resp =>
    match s.parseCertNames resp.body with
    | none => ([], tr)
    | some certNames =>
      let raws := (certNames.map goSplitNL).flatten
      let (names, tr2) := raws.foldl (crtshProcess s) ([], tr)
      (storeFQDNsWithSource names, tr2 ++ [Act.submitStore names srcName])

/-- Embedding of `crtsh.check`: TTL policy keyed by the plugin name `"crt.sh"`, but the
source node (used for the freshness record) resolved by the source name
`"HackerTarget"`. -/
def crtshCheck (s : Session) (asset : OAMAsset) : CheckOut :=
  match asset with
  | OAMAsset.fqdn fname =>
    let tr0 := [Act.scopeQuery fname]
    let sr := s.scope fname
    if sr.conf == 0 || sr.canonical.isNone then (Except.ok (), tr0, s.monitored)
    else if !canonicalFqdnMatches fname sr.canonical then (Except.ok (), tr0, s.monitored)
    else if !s.srcAvail crtshSourceName then
            (Except.error "failed to obtain the plugin source information", tr0, s.monitored)
          else
            let tr1 := tr0 ++ [Act.ttlLookup "FQDN" "FQDN" crtshName]
            match ttlStartTime s "FQDN" "FQDN" crtshName with
            | none => (Except.error "config ttl missing", tr1, s.monitored)
            | some since =>
              let tr2 := tr1 ++ [Act.monitorCheck fname crtshSourceName]
              if assetMonitoredWithinTTL s fname crtshSourceName since then
                let names := s.lookupAssets fname "FQDN" crtshSourceName since
                (Except.ok (), tr2 ++ emitIfAny names, s.monitored)
              else
                let (names, qtr) := crtshQuery s fname crtshSourceName
                let tr3 := tr2 ++ qtr ++ [Act.markMonitored fname crtshSourceName]
                (Except.ok (), tr3 ++ emitIfAny names,
                  markAssetMonitored s fname crtshSourceName)
  | _ => (Except.error "failed to extract the FQDN asset", [], s.monitored)

/-! ## Chaos (api/chaos.go) -/

def chaosURL (name : String) : String :=
  "https://dns.projectdiscovery.io/dns/" ++ name ++ "/subdomains"

/-- Inner loop of `chaos.query` over one subdomain label: the wildcard label
is stripped and the Scope Filter is consulted on the resulting value;
lowercasing and trimming are applied only to the appended value. -/
def chaosProcess (s : Session) (name : String) (acc : List String × List Act)
    (sub : String) : List String × List Act :=
  let n := removeAsteriskLabel (sub ++ "." ++ name)
  let tr := acc.2 ++ [Act.scopeQuery n]
  if 0 < (s.scope n).conf then (acc.1 ++ [goToLower (goTrimSpace n)], tr)
  else (acc.1, tr)

/-- One credential iteration of `chaos.query`: rate-limited retrieval with the
key as Authorization header; transport or unmarshal errors `continue`;
otherwise the subdomains are processed. The loop never breaks early. -/
def chaosKeyStep (s : Session) (name : String) (acc : List String × List Act)
    (key : String) : List String × List Act :=
  let tr := acc.2 ++ [Act.take, Act.fetch (chaosURL name)]
  match s.http ⟨chaosURL name, [("Authorization", key)]⟩ with
  | none => (acc.1, tr)
  | some resp =>
    match s.parseSubdomains resp.body with
    | none => (acc.1, tr)
    | some subs => subs.foldl (chaosProcess s name) (acc.1, tr)

/-- Embedding of `chaos.query`: iterates over every configured API key (no early exit) and
stores the accumulated names. -/
def chaosQuery (s : Session) (name srcName : String) (keys : List String) :
    List String × List Act :=
  let (names, tr) := keys.foldl (chaosKeyStep s name) ([], [])
  (storeFQDNsWithSource names, tr ++ [Act.submitStore names srcName])

/-- The API keys extracted from a data-source credential list: every non-nil
credential with a non-empty API key, in order. -/
def credKeys (creds : List (Option String)) : List String :=
  creds.filterMap (fun cr => cr.bind (fun k => if k == "" then none else some k))

/-- Embedding of `chaos.check`: returns nil when the data source or its credentials are
absent, then follows the shared pipeline template. -/
def chaosCheck (s : Session) (asset : OAMAsset) : CheckOut :=
  match asset with
  | OAMAsset.fqdn fname =>
    match s.dsCreds "Chaos" with
    | none => (Except.ok (), [], s.monitored)
    | some creds =>
      if creds.isEmpty then (Except.ok (), [], s.monitored)
      else
        let keys := credKeys creds
        let tr0 := [Act.scopeQuery fname]
        let sr := s.scope fname
        if sr.conf == 0 || sr.canonical.isNone then (Except.ok (), tr0, s.monitored)
        else if !canonicalFqdnMatches fname sr.canonical then (Except.ok (), tr0, s.monitored)
        else if !s.srcAvail "Chaos" then
                (Except.error "failed to obtain the plugin source information", tr0, s.monitored)
              else
                let tr1 := tr0 ++ [Act.ttlLookup "FQDN" "FQDN" "Chaos"]
                match ttlStartTime s "FQDN" "FQDN" "Chaos" with
                | none => (Except.error "config ttl missing", tr1, s.monitored)
                | some since =>
                  let tr2 := tr1 ++ [Act.monitorCheck fname "Chaos"]
                  if assetMonitoredWithinTTL s fname "Chaos" since then
                    let names := s.lookupAssets fname "FQDN" "Chaos" since
                    (Except.ok (), tr2 ++ emitIfAny names, s.monitored)
                  else
                    let (names, qtr) := chaosQuery s fname "Chaos" keys
                    let tr3 := tr2 ++ qtr ++ [Act.markMonitored fname "Chaos"]
                    (Except.ok (), tr3 ++ emitIfAny names,
                      markAssetMonitored s fname "Chaos")
  | _ => (Except.error "failed to extract the FQDN asset", [], s.monitored)

/-! ## SecurityTrails (api/securitytrails.go) -/

def stURL (name : String) : String :=
  "https://api.securitytrails.com/v1/domain/" ++ name ++ "/subdomains"

/-- Inner loop of `securityTrails.query` over one subdomain label: strip the
wildcard label, normalize, consult the scope filter, append survivors. -/
def stProcess (s : Session) (name : String) (acc : List String × List Act)
    (sub : String) : List String × List Act :=
  let nstr := goToLower (goTrimSpace (removeAsteriskLabel (sub ++ "." ++ name)))
  let tr := acc.2 ++ [Act.scopeQuery nstr]
  if 0 < (s.scope nstr).conf then (acc.1 ++ [nstr], tr) else (acc.1, tr)

/-- Credential loop of `securityTrails.query`: transport errors, empty bodies
and unmarshal errors `continue` to the next key; the first key whose body is
non-empty and parseable is processed and then the loop `break`s. -/
def stGo (s : Session) (name : String) : List String → List String × List Act
  | [] => ([], [])
  | key :: rest =>
    let tr : List Act := [Act.take, Act.fetch (stURL name)]
    match s.http ⟨stURL name, [("APIKEY", key)]⟩ with
    | none =>
      let (ns, tr2) := stGo s name rest
      (ns, tr ++ tr2)
    | some resp =>
      if resp.body == "" then
        let (ns, tr2) := stGo s name rest
        (ns, tr ++ tr2)
      else
        match s.parseSubdomains resp.body with
        | none =>
          let (ns, tr2) := stGo s name rest
          (ns, tr ++ tr2)
        | some subs => subs.foldl (stProcess s name) ([], tr)

/-- Embedding of `securityTrails.query`: first-success-wins over the credential list, then
the store step. -/
def securityTrailsQuery (s : Session) (name srcName : String) (keys : List String) :
    List String × List Act :=
  let (names, tr) := stGo s name keys
  (storeFQDNsWithSource names, tr ++ [Act.submitStore names srcName])

/-- Embedding of `securityTrails.check`: same shape as `chaos.check` with the
SecurityTrails names and the first-success-wins query. -/
def securityTrailsCheck (s : Session) (asset : OAMAsset) : CheckOut :=
  match asset with
  | OAMAsset.fqdn fname =>
    match s.dsCreds "SecurityTrails" with
    | none => (Except.ok (), [], s.monitored)
    | some creds =>
      if creds.isEmpty then (Except.ok (), [], s.monitored)
      else
        let keys := credKeys creds
        let tr0 := [Act.scopeQuery fname]
        let sr := s.scope fname
        if sr.conf == 0 || sr.canonical.isNone then (Except.ok (), tr0, s.monitored)
        else if !canonicalFqdnMatches fname sr.canonical then (Except.ok (), tr0, s.monitored)
        else if !s.srcAvail "SecurityTrails" then
                (Except.error "failed to obtain the plugin source information", tr0, s.monitored)
              else
                let tr1 := tr0 ++ [Act.ttlLookup "FQDN" "FQDN" "SecurityTrails"]
                match ttlStartTime s "FQDN" "FQDN" "SecurityTrails" with
                | none => (Except.error "config ttl missing", tr1, s.monitored)
                | some since =>
                  let tr2 := tr1 ++ [Act.monitorCheck fname "SecurityTrails"]
                  if assetMonitoredWithinTTL s fname "SecurityTrails" since then
                    let names := s.lookupAssets fname "FQDN" "SecurityTrails" since
                    (Except.ok (), tr2 ++ emitIfAny names, s.monitored)
                  else
                    let (names, qtr) := securityTrailsQuery s fname "SecurityTrails" keys
                    let tr3 := tr2 ++ qtr ++ [Act.markMonitored fname "SecurityTrails"]
                    (Except.ok (), tr3 ++ emitIfAny names,
                      markAssetMonitored s fname "SecurityTrails")
  | _ => (Except.error "failed to extract the FQDN asset", [], s.monitored)

/-- Whether one securityTrails credential succeeds: its retrieval returns a
response with a non-empty body that parses (none of the three `continue`
guards of the credential loop fires). -/
def stKeySucceeds (s : Session) (name key : String) : Bool :=
  match s.http ⟨stURL name, [("APIKEY", key)]⟩ with
  | none => false
  | some resp => resp.body != "" && (s.parseSubdomains resp.body).isSome

/-- How many credentials the securityTrails loop tries on the given key list:
each failing credential is tried and the loop falls through to the next; the
first succeeding credential is tried and the loop stops there. -/
def stTriedCount (s : Session) (name : String) : List String → Nat
  | [] => 0
  | key :: rest =>
    if stKeySucceeds s name key then 1 else stTriedCount s name rest + 1

/-! ## SiteDossier (scrape/sitedossier.go) -/

def sdURL (name : String) (i : Nat) : String :=
  "http://www.sitedossier.com/parentdomain/" ++ name ++ "/" ++ toString i

/-- Loop body of `siteDossier.query` over one scraped subdomain name:
normalize, consult the scope filter, insert survivors into the set. -/
def sdProcess (s : Session) (acc : List String × List Act) (n : String) :
    List String × List Act :=
  let nstr := goToLower (goTrimSpace n)
  let tr := acc.2 ++ [Act.scopeQuery nstr]
  if 0 < (s.scope nstr).conf then (ssInsert acc.1 nstr, tr) else (acc.1, tr)

/-- The page loop of `siteDossier.query` (`for i := 1; i < 20; i++`), given
the list of remaining page numbers: each page is a rate-limited retrieval;
a transport error or empty body `break`s the loop. -/
def sdGo (s : Session) (name : String) :
    List Nat → List String → List Act → List String × List Act
  | [], subs, tr => (subs, tr)
  | i :: rest, subs, tr =>
    let tr1 := tr ++ [Act.take, Act.fetch (sdURL name i)]
    match s.http ⟨sdURL name i, []⟩ with
    | none => (subs, tr1)
    | some resp =>
      if resp.body == "" then (subs, tr1)
      else
        let (subs2, tr2) := (s.scrapeNames resp.body).foldl (sdProcess s) (subs, tr1)
        sdGo s name rest subs2 tr2

/-- Embedding of `siteDossier.query`: a paginated loop over pages 1 through 19, then the
store step. -/
def siteDossierQuery (s : Session) (name srcName : String) :
    List String × List Act :=
  let (subs, tr) := sdGo s name (List.range' 1 19) [] []
  (storeFQDNsWithSource subs, tr ++ [Act.submitStore subs srcName])

/-- Embedding of `siteDossier.check`: the shared pipeline template with the SiteDossier
names and the paginated query. -/
def siteDossierCheck (s : Session) (asset : OAMAsset) : CheckOut :=
  match asset with
  | OAMAsset.fqdn fname =>
    let tr0 := [Act.scopeQuery fname]
    let sr := s.scope fname
    if sr.conf == 0 || sr.canonical.isNone then (Except.ok (), tr0, s.monitored)
    else if !canonicalFqdnMatches fname sr.canonical then (Except.ok (), tr0, s.monitored)
    else if !s.srcAvail "SiteDossier" then
            (Except.error "failed to obtain the plugin source information", tr0, s.monitored)
          else
            let tr1 := tr0 ++ [Act.ttlLookup "FQDN" "FQDN" "SiteDossier"]
            match ttlStartTime s "FQDN" "FQDN" "SiteDossier" with
            | none => (Except.error "config ttl missing", tr1, s.monitored)
            | some since =>
              let tr2 := tr1 ++ [Act.monitorCheck fname "SiteDossier"]
              if assetMonitoredWithinTTL s fname "SiteDossier" since then
                let names := s.lookupAssets fname "FQDN" "SiteDossier" since
                (Except.ok (), tr2 ++ emitIfAny names, s.monitored)
              else
                let (names, qtr) := siteDossierQuery s fname "SiteDossier"
                let tr3 := tr2 ++ qtr ++ [Act.markMonitored fname "SiteDossier"]
                (Except.ok (), tr3 ++ emitIfAny names,
                  markAssetMonitored s fname "SiteDossier")
  | _ => (Except.error "failed to extract the FQDN asset", [], s.monitored)

/-! ## rdap autnum handler (rdap/autnum.go)

The rdap handler works on the asset graph directly through the serialized
mutation queue, so a small graph-store model is embedded: assets with
identifiers and last-seen timestamps, plus typed timestamped relations. -/

/-- A persisted graph entity. -/
structure DBAsset where
  id : Nat
  asset : OAMAsset
  lastSeen : Nat
deriving DecidableEq

/-- A persisted graph relation. -/
structure DBRel where
  rtype : String
  fromId : Nat
  toId : Nat
  lastSeen : Nat
deriving DecidableEq

/-- The asset graph reachable through `e.Session.DB()`. -/
structure DB where
  assets : List DBAsset
  rels : List DBRel
deriving DecidableEq

/-- Modelled from the spec: `OutgoingRelations(node, since, ...kinds)` — the
outgoing edges of the node, filtered to the given kinds (no kind filter when
none are given) and to timestamps at or after `since`. -/
def DB.outgoingRelations (db : DB) (fromId : Nat) (since : Nat)
    (rtypes : List String) : List DBRel :=
  db.rels.filter (fun r =>
    r.fromId == fromId && (rtypes.isEmpty || rtypes.contains r.rtype) &&
      Nat.ble since r.lastSeen)

/-- Modelled from the spec: `FindById`. -/
def DB.findById (db : DB) (i : Nat) : Option DBAsset :=
  db.assets.find? (fun a => a.id == i)

/-- The next free entity identifier. -/
def DB.nextId (db : DB) : Nat :=
  db.assets.foldl (fun m a => max m (a.id + 1)) 0

/-- Modelled from the spec: `Create(parent, relationKind, value)` persists the
value under the parent and returns the new entity. -/
def DB.create (db : DB) (parentId : Nat) (rtype : String) (value : OAMAsset)
    (now : Nat) : DBAsset × DB :=
  let a : DBAsset := ⟨db.nextId, value, now⟩
  (a, ⟨db.assets ++ [a], db.rels ++ [⟨rtype, parentId, a.id, now⟩]⟩)

/-- Modelled from the spec: `Link(from, relationKind, to)`. -/
def DB.link (db : DB) (fromId : Nat) (rtype : String) (toId : Nat) (now : Nat) : DB :=
  ⟨db.assets, db.rels ++ [⟨rtype, fromId, toId, now⟩]⟩

/-- One graph-store operation performed inside a mutation body. -/
inductive DBOp where
  | readRels (fromId : Nat) (since : Nat) (rtypes : List String)
  | readAsset (id : Nat)
  | create (parentId : Nat) (rtype : String) (value : OAMAsset)
  | link (fromId : Nat) (rtype : String) (toId : Nat)
deriving DecidableEq

/-- A relationship finding handed back to the event system. -/
structure Finding where
  fromId : Nat
  fromName : String
  toId : Nat
  toName : String
  rel : String
deriving DecidableEq

/-- Embedding of `autnum.oneOfSources`: whether the asset carries a `source` edge to this
source node at or after `since`. -/
def autnumOneOfSources (db : DB) (assetId srcId : Nat) (since : Nat) : Bool :=
  let rels := db.outgoingRelations assetId since ["source"]
  !rels.isEmpty && rels.any (fun r => r.toId == srcId)

/-- The `name` computed for a finding by the type switch in `autnum.lookup`;
`none` for the `default: continue` branch. -/
def autnumFindingName : OAMAsset → Option String
  | OAMAsset.fqdn n => some n
  | OAMAsset.contactRecord d => some ("ContactRecord: " ++ d)
  | OAMAsset.url r => some r
  | _ => none

/-- Per-relation body of the mutation closure in `autnum.lookup`. The closure
asserts the subject to be an `AutnumRecord`; the embedding returns no finding
on other subjects (the branch is unreachable from `autnum.check`). -/
def autnumLookupRelStep (db : DB) (sinces : List (String × Nat)) (asset : DBAsset)
    (srcId : Nat) (acc : List Finding × List DBOp) (rel : DBRel) :
    List Finding × List DBOp :=
  let ops := acc.2 ++ [DBOp.readAsset rel.toId]
  match db.findById rel.toId with
  | none => (acc.1, ops)
  | some a =>
    let totype := a.asset.assetType
    match List.lookup totype sinces with
    | none => (acc.1, ops)
    | some since =>
      if a.lastSeen < since then (acc.1, ops)
      else
        let ops2 := ops ++ [DBOp.readRels a.id since ["source"]]
        if !autnumOneOfSources db a.id srcId since then (acc.1, ops2)
        else
          match autnumFindingName a.asset with
          | none => (acc.1, ops2)
          | some nm =>
            match asset.asset with
            | OAMAsset.autnumRecord handle _ =>
              (acc.1 ++ [⟨asset.id, "AutnumRecord: " ++ handle, a.id, nm, rel.rtype⟩],
                ops2)
            | _ => (acc.1, ops2)

/-- The mutation closure body submitted by `autnum.lookup` to the serialized
mutation queue: it first observes the session done signal and becomes a
no-op once it is set; otherwise it only reads the graph and builds findings. -/
def autnumLookupBody (done : Bool) (db : DB) (sinces : List (String × Nat))
    (rtypes : List String) (asset : DBAsset) (srcId : Nat) :
    List Finding × DB × List DBOp :=
  if done then ([], db, [])
  else
    let rels := db.outgoingRelations asset.id 0 rtypes
    let ops0 : List DBOp := [DBOp.readRels asset.id 0 rtypes]
    if rels.isEmpty then ([], db, ops0)
    else
      let (fs, ops) := rels.foldl (autnumLookupRelStep db sinces asset srcId) ([], ops0)
      (fs, db, ops)

/-- The per-transform preparation loop of `autnum.lookup`: for every matched
transform a TTL policy is resolved; a missing policy `continue`s to the next
transform instead of aborting. -/
def autnumPrepStep (ttl : String → String → String → Option Nat) (now : Nat)
    (pluginName : String) (mset : List String)
    (acc : List (String × Nat) × List String × List Act) (atype : String) :
    List (String × Nat) × List String × List Act :=
  if !mset.contains atype then acc
  else
    let tr := acc.2.2 ++ [Act.ttlLookup "AutnumRecord" atype pluginName]
    match ttl "AutnumRecord" atype pluginName with
    | none => (acc.1, acc.2.1, tr)
    | some t =>
      let sinces := acc.1 ++ [(atype, now - t)]
      let rts :=
        if atype == "URL" then acc.2.1 ++ ["rdap_url"]
        else if atype == "FQDN" then acc.2.1 ++ ["whois_server"]
        else if atype == "ContactRecord" then
          acc.2.1 ++ ["registrant", "admin_contact", "abuse_contact", "technical_contact"]
        else acc.2.1
      (sinces, rts, tr)

/-- Embedding of `autnum.lookup`: resolve the per-transform TTL policies, then submit one
mutation closure to the serialized queue and wait for it. -/
def autnumLookup (ttl : String → String → String → Option Nat) (now : Nat)
    (done : Bool) (db : DB) (transforms : List String) (pluginName : String)
    (asset : DBAsset) (srcId : Nat) (mset : List String) :
    List Finding × List Act :=
  let (sinces, rtypes, tr0) :=
    transforms.foldl (autnumPrepStep ttl now pluginName mset) ([], [], [])
  let (fs, _, _) := autnumLookupBody done db sinces rtypes asset srcId
  (fs, tr0 ++ [Act.dbSubmit])

/-- The mutation closure body submitted by `autnum.store`: it first observes
the session done signal and becomes a no-op once it is set; otherwise it
creates the rdap URL and whois-server entities and links them to the source. -/
def autnumStoreBody (done : Bool) (db : DB) (now : Nat)
    (jsonLink : Option String) (mset : List String) (asset : DBAsset)
    (handle whoisServer : String) (srcId : Nat)
    (scope : String → ScopeResult) : List Finding × DB × List DBOp :=
  if done then ([], db, [])
  else
    let (fs1, db1, ops1) : List Finding × DB × List DBOp :=
      match jsonLink with
      | some u =>
        if mset.contains "URL" then
          let (a, dbA) := db.create asset.id "rdap_url" (OAMAsset.url u) now
          let dbB := dbA.link a.id "source" srcId now
          ([⟨asset.id, "AutnumRecord: " ++ handle, a.id, u, "rdap_url"⟩], dbB,
            [DBOp.create asset.id "rdap_url" (OAMAsset.url u),
             DBOp.link a.id "source" srcId])
        else ([], db, [])
      | none => ([], db, [])
    if whoisServer != "" && mset.contains "FQDN" then
      let (a, dbA) := db1.create asset.id "whois_server" (OAMAsset.fqdn whoisServer) now
      let dbB := dbA.link a.id "source" srcId now
      let ops := ops1 ++
        [DBOp.create asset.id "whois_server" (OAMAsset.fqdn whoisServer),
         DBOp.link a.id "source" srcId]
      if 0 < (scope whoisServer).conf then
        (fs1 ++ [⟨asset.id, "AutnumRecord: " ++ handle, a.id, whoisServer, "whois_server"⟩],
          dbB, ops)
      else (fs1, dbB, ops)
    else (fs1, db1, ops1)

/-- The rdap response data consumed by `autnum.store`: the JSON link extracted
by the plugin helper and, for the ContactRecord transform, the findings of
the `storeEntity` helper (both helpers live outside the analysed sources). -/
structure RdapAutnumResp where
  jsonLink : Option String
  entityFindings : List Finding
deriving DecidableEq

/-- Embedding of `autnum.store`: one mutation closure through the serialized queue, then
the entity findings when the ContactRecord transform is matched. -/
def autnumStore (ttlNow : Nat) (done : Bool) (db : DB) (resp : RdapAutnumResp)
    (asset : DBAsset) (handle whoisServer : String) (srcId : Nat)
    (mset : List String) (scope : String → ScopeResult) :
    List Finding × DB × List Act :=
  let (fs, db2, _) := autnumStoreBody done db ttlNow resp.jsonLink mset asset
    handle whoisServer srcId scope
  let fs2 := if mset.contains "ContactRecord" then fs ++ resp.entityFindings else fs
  (fs2, db2, [Act.dbSubmit])

/-- Embedding of `autnum.check`: extract the AutnumRecord subject, resolve the source,
consult the configured transformations, and run the store path (when the
event carries a pre-fetched rdap record) or the lookup path. -/
def autnumCheck (ttl : String → String → String → Option Nat) (now : Nat)
    (done : Bool) (db : DB) (scope : String → ScopeResult)
    (transforms : List String) (pluginName : String) (entity : DBAsset)
    (srcAvail : Bool) (srcId : Nat) (mset : Option (List String))
    (meta : Option RdapAutnumResp) :
    Except String Unit × List Finding × DB × List Act :=
  match entity.asset with
  | OAMAsset.autnumRecord handle whoisServer =>
    if !srcAvail then
      (Except.error "failed to obtain the plugin source information", [], db, [])
    else
      match mset with
      | none => (Except.ok (), [], db, [])
      | some ms =>
        if ms.isEmpty then (Except.ok (), [], db, [])
        else
          match meta with
          | some resp =>
            let (fs, db2, tr) :=
              autnumStore now done db resp entity handle whoisServer srcId ms scope
            (Except.ok (), fs, db2,
              tr ++ (if fs.isEmpty then [] else [Act.emit (fs.map (fun f => f.toName))]))
          | none =>
            let (fs, tr) := autnumLookup ttl now done db transforms pluginName entity srcId ms
            (Except.ok (), fs, db,
              tr ++ (if fs.isEmpty then [] else [Act.emit (fs.map (fun f => f.toName))]))
  | _ => (Except.error "failed to extract the AutnumRecord asset", [], db, [])

/-! ## Observations on traces and concrete test environments -/

/-- Whether a check returned Go's nil error. -/
def isOk : Except String Unit → Bool
  | Except.ok _ => true
  | Except.error _ => false

/-- An action that is neither an external retrieval, a rate-limiter
acquisition, a graph-mutation submission, nor a finding emission. -/
def harmless (a : Act) : Bool :=
  !(a.isFetch || a.isTake || a.isMutationAct || a.isEmit)

/-- A check outcome that is a clean no-op: nil error, no retrieval, no
rate-limiter acquisition, no mutation submission, no findings, and the
freshness records untouched. -/
def cleanNoop (s : Session) (r : CheckOut) : Prop :=
  r.1 = Except.ok () ∧ r.2.1.all harmless = true ∧ r.2.2 = s.monitored

/-- A trace free of external retrievals and rate-limiter acquisitions. -/
def noNetwork (tr : List Act) : Bool :=
  tr.all (fun a => !(a.isFetch || a.isTake))

/-- A concrete session whose scope filter accepts exactly `example.com`, with
a TTL policy of 24 for every source, no freshness records, and failing HTTP. -/
def sessBase : Session :=
  { scope := fun n =>
      if n == "example.com" then ⟨some (OAMAsset.fqdn "example.com"), 50⟩
      else ⟨none, 0⟩,
    ttl := fun _ _ _ => some 24,
    dsCreds := fun _ => some [some "k1"],
    srcAvail := fun _ => true,
    http := fun _ => none,
    scrapeNames := fun _ => [],
    parseSubdomains := fun _ => none,
    parseCertNames := fun _ => none,
    lookupAssets := fun _ _ _ _ => [],
    monitored := [],
    now := 100 }

/-- A concrete session whose single retrieval yields the three raw candidate
values of the specification's dedup example, all of which normalize to
`a.example.com` and are in scope. -/
def sessDup : Session :=
  { scope := fun n =>
      if n == "a.example.com" then ⟨some (OAMAsset.fqdn "a.example.com"), 50⟩
      else ⟨none, 0⟩,
    ttl := fun _ _ _ => some 24,
    dsCreds := fun _ => none,
    srcAvail := fun _ => true,
    http := fun _ => some ⟨"page"⟩,
    scrapeNames := fun _ => ["a.example.com", "A.example.com", " a.example.com "],
    parseSubdomains := fun _ => none,
    parseCertNames := fun _ => some ["a.example.com\nA.example.com\n a.example.com "],
    lookupAssets := fun _ _ _ _ => [],
    monitored := [],
    now := 100 }

/-- A concrete session for the chaos credential and normalization runs: every
retrieval succeeds, the parsed subdomain list is `[" WWW"]`, and the scope
filter accepts anything normalizing to `www.example.com`. -/
def sessChaos : Session :=
  { scope := fun n =>
      if goToLower (goTrimSpace n) == "www.example.com" then
        ⟨some (OAMAsset.fqdn "www.example.com"), 50⟩
      else ⟨none, 0⟩,
    ttl := fun _ _ _ => some 24,
    dsCreds := fun _ => some [some "k1", some "k2"],
    srcAvail := fun _ => true,
    http := fun _ => some ⟨"body"⟩,
    scrapeNames := fun _ => [],
    parseSubdomains := fun _ => some [" WWW"],
    parseCertNames := fun _ => none,
    lookupAssets := fun _ _ _ _ => [],
    monitored := [],
    now := 100 }

/-- A TTL configuration with no policy at all. -/
def cfgNoTTL : String → String → String → Option Nat := fun _ _ _ => none

/-- Variant of `sessBase` with every TTL policy missing. -/
def sessNoTTL : Session := { sessBase with ttl := cfgNoTTL }

/-- Variant of `sessBase` with a fresh monitoring record for `example.com` by DuckDuckGo
and one previously persisted result. -/
def sessFresh : Session :=
  { sessBase with
    monitored := [("example.com", "DuckDuckGo", 100)],
    lookupAssets := fun _ _ _ _ => ["www.example.com"] }

/-- Whether the SiteDossier retrieval of page `i` succeeds with a non-empty
body. -/
def sdPageOK (s : Session) (name : String) (i : Nat) : Bool :=
  match s.http ⟨sdURL name i, []⟩ with
  | none => false
  | some resp => resp.body != ""

/-- The length of the maximal prefix of the given pages whose retrievals all
succeed with non-empty bodies. -/
def sdOKRun (s : Session) (name : String) : List Nat → Nat
  | [] => 0
  | i :: rest => if sdPageOK s name i then sdOKRun s name rest + 1 else 0

/-- A concrete autnum-record graph entity. -/
def autnumEntity : DBAsset := ⟨1, OAMAsset.autnumRecord "AS64500" "", 0⟩

/-! ## Trace lemmas for the candidate-processing loops -/

/-- Every candidate-processing step of the query loops records exactly one
scope query, for the value it hands to the Scope Filter. -/
theorem fold_scopeVals (step : List String × List Act → String → List String × List Act)
    (f : String → String)
    (hstep : ∀ acc n, (step acc n).2 = acc.2 ++ [Act.scopeQuery (f n)]) :
    ∀ (raws : List String) (acc : List String × List Act),
      scopeVals ((raws.foldl step acc).2) = scopeVals acc.2 ++ raws.map f := by
  intro raws
  induction raws with
  | nil => intro acc; simp
  | cons n rest ih =>
    intro acc
    simp only [List.foldl_cons, List.map_cons]
    rw [ih (step acc n), hstep]
    simp [scopeVals]

/-- A candidate-processing loop performs no external retrievals. -/
theorem fold_fetchCount (step : List String × List Act → String → List String × List Act)
    (f : String → String)
    (hstep : ∀ acc n, (step acc n).2 = acc.2 ++ [Act.scopeQuery (f n)]) :
    ∀ (raws : List String) (acc : List String × List Act),
      ((raws.foldl step acc).2).countP Act.isFetch = acc.2.countP Act.isFetch := by
  intro raws
  induction raws with
  | nil => intro acc; rfl
  | cons n rest ih =>
    intro acc
    simp only [List.foldl_cons]
    rw [ih (step acc n), hstep]
    simp [List.countP_append, List.countP_cons, Act.isFetch]

theorem ddgProcess_trace (s : Session) (acc : List String × List Act) (n : String) :
    (ddgProcess s acc n).2 = acc.2 ++ [Act.scopeQuery (goToLower (goTrimSpace n))] := by
  unfold ddgProcess
  dsimp only
  split <;> rfl

theorem crtshProcess_trace (s : Session) (acc : List String × List Act) (n : String) :
    (crtshProcess s acc n).2 =
      acc.2 ++ [Act.scopeQuery (goToLower (goTrimSpace (removeAsteriskLabel n)))] := by
  unfold crtshProcess
  dsimp only
  split <;> rfl

theorem stProcess_trace (s : Session) (name : String) (acc : List String × List Act)
    (sub : String) :
    (stProcess s name acc sub).2 =
      acc.2 ++ [Act.scopeQuery (goToLower (goTrimSpace
        (removeAsteriskLabel (sub ++ "." ++ name))))] := by
  unfold stProcess
  dsimp only
  split <;> rfl

theorem chaosProcess_trace (s : Session) (name : String) (acc : List String × List Act)
    (sub : String) :
    (chaosProcess s name acc sub).2 =
      acc.2 ++ [Act.scopeQuery (removeAsteriskLabel (sub ++ "." ++ name))] := by
  unfold chaosProcess
  dsimp only
  split <;> rfl

theorem sdProcess_trace (s : Session) (acc : List String × List Act) (n : String) :
    (sdProcess s acc n).2 = acc.2 ++ [Act.scopeQuery (goToLower (goTrimSpace n))] := by
  unfold sdProcess
  dsimp only
  split <;> rfl

/-- One chaos credential iteration always performs exactly one retrieval,
whether or not it succeeds or parses. -/
theorem chaosKeyStep_fetchCount (s : Session) (name : String)
    (acc : List String × List Act) (key : String) :
    ((chaosKeyStep s name acc key).2).countP Act.isFetch =
      acc.2.countP Act.isFetch + 1 := by
  unfold chaosKeyStep
  cases hh : s.http ⟨chaosURL name, [("Authorization", key)]⟩ with
  | none => simp [hh, List.countP_append, List.countP_cons, Act.isFetch]
  | some resp =>
    simp only [hh]
    cases hp : s.parseSubdomains resp.body with
    | none => simp [hp, List.countP_append, List.countP_cons, Act.isFetch]
    | some subs =>
      simp only [hp]
      rw [fold_fetchCount (chaosProcess s name) _ (chaosProcess_trace s name)]
      simp [List.countP_append, List.countP_cons, Act.isFetch]

/-- A candidate-processing loop leaves the retrieved URLs unchanged. -/
theorem fold_fetchedUrls (step : List String × List Act → String → List String × List Act)
    (f : String → String)
    (hstep : ∀ acc n, (step acc n).2 = acc.2 ++ [Act.scopeQuery (f n)]) :
    ∀ (raws : List String) (acc : List String × List Act),
      fetchedUrls ((raws.foldl step acc).2) = fetchedUrls acc.2 := by
  intro raws
  induction raws with
  | nil => intro acc; rfl
  | cons n rest ih =>
    intro acc
    simp only [List.foldl_cons]
    rw [ih (step acc n), hstep]
    simp [fetchedUrls]

/-- Inserting into the string set preserves the absence of duplicates. -/
theorem ssInsert_nodup (l : List String) (x : String) (h : l.Nodup) :
    (ssInsert l x).Nodup := by
  unfold ssInsert
  split
  · exact h
  · next hx =>
    refine List.Nodup.append h (List.nodup_singleton x) ?_
    intro a ha hb
    rw [List.mem_singleton] at hb
    exact hx (hb ▸ ha)

/-- A fold whose step preserves duplicate-freedom of the collected values. -/
theorem fold_nodup (step : List String × List Act → String → List String × List Act)
    (hstep : ∀ acc n, acc.1.Nodup → ((step acc n).1).Nodup) :
    ∀ (raws : List String) (acc : List String × List Act),
      acc.1.Nodup → ((raws.foldl step acc).1).Nodup := by
  intro raws
  induction raws with
  | nil => intro acc h; exact h
  | cons n rest ih =>
    intro acc h
    exact ih (step acc n) (hstep acc n h)

theorem ddgProcess_nodup (s : Session) (acc : List String × List Act) (n : String)
    (h : acc.1.Nodup) : ((ddgProcess s acc n).1).Nodup := by
  unfold ddgProcess
  dsimp only
  split
  · exact ssInsert_nodup _ _ h
  · exact h

theorem sdProcess_nodup (s : Session) (acc : List String × List Act) (n : String)
    (h : acc.1.Nodup) : ((sdProcess s acc n).1).Nodup := by
  unfold sdProcess
  dsimp only
  split
  · exact ssInsert_nodup _ _ h
  · exact h

/-- The SiteDossier page loop preserves duplicate-freedom of the set. -/
theorem sdGo_nodup (s : Session) (name : String) :
    ∀ (pages : List Nat) (subs : List String) (tr : List Act),
      subs.Nodup → ((sdGo s name pages subs tr).1).Nodup := by
  intro pages
  induction pages with
  | nil => intro subs tr h; exact h
  | cons i rest ih =>
    intro subs tr h
    unfold sdGo
    cases hh : s.http ⟨sdURL name i, []⟩ with
    | none => simpa [hh] using h
    | some resp =>
      simp only [hh]
      split
      · exact h
      · rcases hq : (s.scrapeNames resp.body).foldl (sdProcess s)
          (subs, tr ++ [Act.take, Act.fetch (sdURL name i)]) with ⟨subs2, tr2⟩
        have hn := fold_nodup (sdProcess s) (sdProcess_nodup s)
          (s.scrapeNames resp.body) (subs, tr ++ [Act.take, Act.fetch (sdURL name i)]) h
        rw [hq] at hn
        simpa [hq] using ih subs2 tr2 hn

/-- The retrieved URLs of the SiteDossier page loop: every page of the given
list is retrieved exactly up to (and including) the first page whose
retrieval fails or returns an empty body. -/
theorem sdGo_fetchedUrls (s : Session) (name : String) :
    ∀ (pages : List Nat) (subs : List String) (tr : List Act),
      fetchedUrls (sdGo s name pages subs tr).2 =
        fetchedUrls tr ++ (pages.take (sdOKRun s name pages + 1)).map (sdURL name) := by
  intro pages
  induction pages with
  | nil => intro subs tr; simp [sdGo, sdOKRun]
  | cons i rest ih =>
    intro subs tr
    unfold sdGo sdOKRun
    cases hh : s.http ⟨sdURL name i, []⟩ with
    | none =>
      simp [hh, sdPageOK, fetchedUrls]
    | some resp =>
      simp only [hh]
      cases hb : resp.body == "" with
      | true =>
        have hnok : sdPageOK s name i = false := by
          unfold sdPageOK
          rw [hh]
          simpa using hb
        simp [hb, hnok, fetchedUrls]
      | false =>
        have hok : sdPageOK s name i = true := by
          unfold sdPageOK
          rw [hh]
          simpa using hb
        rcases hq : (s.scrapeNames resp.body).foldl (sdProcess s)
          (subs, tr ++ [Act.take, Act.fetch (sdURL name i)]) with ⟨subs2, tr2⟩
        have htr2 : fetchedUrls tr2 = fetchedUrls (tr ++ [Act.take, Act.fetch (sdURL name i)]) := by
          have := fold_fetchedUrls (sdProcess s) _ (sdProcess_trace s)
            (s.scrapeNames resp.body) (subs, tr ++ [Act.take, Act.fetch (sdURL name i)])
          rw [hq] at this
          exact this
        simp only [hb, Bool.false_eq_true, if_false, hq, hok, if_true]
        rw [ih subs2 tr2, htr2]
        simp [fetchedUrls, List.take_succ_cons]

/-! ## Claim theorems -/

/-- C9: every mutation closure submitted to the serialized graph-mutation
queue (the lookup closure and the store closure of the rdap autnum handler,
the only two `AppendToDBQueue` call sites) observes the session done signal
inside the mutation body before touching the graph store: once the session
is terminated the closure performs no graph reads or writes, leaves the
database unchanged, and produces no findings. -/
theorem autnumClosuresNoopWhenDone :
    (∀ db sinces rtypes asset srcId,
      autnumLookupBody true db sinces rtypes asset srcId = ([], db, [])) ∧
    (∀ db now jsonLink mset asset handle whoisServer srcId scope,
      autnumStoreBody true db now jsonLink mset asset handle whoisServer srcId scope
        = ([], db, [])) :=
  ⟨fun _ _ _ _ _ => rfl, fun _ _ _ _ _ _ _ _ _ => rfl⟩

/-- C2 (code bug): in the crt.sh plugin the TTL policy is resolved under the
plugin name `crt.sh` while the freshness record is attached to a source node
named `HackerTarget` (the source descriptor constructed by `NewCrtsh`), so
the freshness record and the TTL policy are not keyed by the same source
name — contradicting the invariant that one name keys both. -/
theorem crtshFreshnessSourceNameMismatch :
    Act.ttlLookup "FQDN" "FQDN" "crt.sh"
        ∈ (crtshCheck sessBase (OAMAsset.fqdn "example.com")).2.1 ∧
    Act.markMonitored "example.com" "HackerTarget"
        ∈ (crtshCheck sessBase (OAMAsset.fqdn "example.com")).2.1 ∧
    (crtshCheck sessBase (OAMAsset.fqdn "example.com")).2.2 =
        [("example.com", "HackerTarget", 100)] ∧
    crtshName ≠ crtshSourceName := by decide

/-- C4 counterexample: for the retrieval yielding the raw values
`a.example.com`, `A.example.com`, and ` a.example.com ` (all normalizing to
`a.example.com`, all in scope), `crtsh.query` passes three candidate values
to the store step, not exactly one. -/
theorem crtshPassesDuplicatesToStore :
    (crtshQuery sessDup "example.com" "HackerTarget").1 =
      ["a.example.com", "a.example.com", "a.example.com"] ∧
    Act.submitStore ["a.example.com", "a.example.com", "a.example.com"] "HackerTarget"
      ∈ (crtshQuery sessDup "example.com" "HackerTarget").2 ∧
    ¬ ([("a.example.com" : String), "a.example.com", "a.example.com"].length = 1) := by
  decide

/-- C5 counterexample: `chaos.query` consults the Scope Filter on the value
` WWW.example.com`, which is not equal to its own normalization — the scope
check is applied to an un-normalized candidate. -/
theorem chaosScopeChecksUnnormalized :
    Act.scopeQuery " WWW.example.com"
      ∈ (chaosQuery sessChaos "example.com" "Chaos" ["k1"]).2 ∧
    goToLower (goTrimSpace " WWW.example.com") ≠ " WWW.example.com" := by decide

/-- C6 counterexample: with two configured credentials and a first credential
whose retrieval succeeds with a non-empty, parseable body, `chaos.query`
still performs a second retrieval with the remaining credential. -/
theorem chaosQueriesAllCredentials :
    sessChaos.http ⟨chaosURL "example.com", [("Authorization", "k1")]⟩ = some ⟨"body"⟩ ∧
    sessChaos.parseSubdomains "body" = some [" WWW"] ∧
    fetchedUrls (chaosQuery sessChaos "example.com" "Chaos" ["k1", "k2"]).2 =
      [chaosURL "example.com", chaosURL "example.com"] := by decide

/-- The DuckDuckGo query never hands a duplicate value to the store step. -/
theorem ddgQuery_nodup (s : Session) (name srcName : String) :
    ((duckDuckGoQuery s name srcName).1).Nodup := by
  unfold duckDuckGoQuery
  cases hh : s.http ⟨ddgURL name, []⟩ with
  | none => simp [hh]
  | some resp =>
    simp only [hh]
    split
    · simp
    · rcases hq : (s.scrapeNames resp.body).foldl (ddgProcess s)
        ([], [Act.take, Act.fetch (ddgURL name)]) with ⟨subs, tr2⟩
      have hn := fold_nodup (ddgProcess s) (ddgProcess_nodup s)
        (s.scrapeNames resp.body) ([], [Act.take, Act.fetch (ddgURL name)])
        List.nodup_nil
      rw [hq] at hn
      simpa [hq, storeFQDNsWithSource] using hn

/-- The SiteDossier query never hands a duplicate value to the store step. -/
theorem sdQuery_nodup (s : Session) (name srcName : String) :
    ((siteDossierQuery s name srcName).1).Nodup := by
  unfold siteDossierQuery
  rcases hq : sdGo s name (List.range' 1 19) [] [] with ⟨subs, tr⟩
  have hn := sdGo_nodup s name (List.range' 1 19) [] [] List.nodup_nil
  rw [hq] at hn
  simpa [hq, storeFQDNsWithSource] using hn

/-- C4 (amended): the plugins that use the Dedup Set (DuckDuckGo, SiteDossier)
never pass a duplicate to the store step — on the specification's example
retrieval exactly one `a.example.com` reaches the store; crt.sh and Chaos do
not deduplicate: every normalized in-scope candidate is passed to the store
step, duplicates included. -/
theorem dedupPolicyByPlugin :
    (∀ (s : Session) (name srcName : String), ((duckDuckGoQuery s name srcName).1).Nodup) ∧
    (∀ (s : Session) (name srcName : String), ((siteDossierQuery s name srcName).1).Nodup) ∧
    (duckDuckGoQuery sessDup "example.com" "DuckDuckGo").1 = ["a.example.com"] ∧
    (crtshQuery sessDup "example.com" "HackerTarget").1 =
      ["a.example.com", "a.example.com", "a.example.com"] ∧
    (chaosQuery sessChaos "example.com" "Chaos" ["k1", "k2"]).1 =
      ["www.example.com", "www.example.com"] :=
  ⟨ddgQuery_nodup, sdQuery_nodup, by decide, by decide, by decide⟩

/-- C7: the SiteDossier query retrieves at most the nineteen pages 1 through
19, in order, each at most once, and stops at the first retrieval that fails
or returns an empty body (that page is fetched once and never retried). -/
theorem siteDossierPagination (s : Session) (name srcName : String) :
    fetchedUrls (siteDossierQuery s name srcName).2 =
      ((List.range' 1 19).take (sdOKRun s name (List.range' 1 19) + 1)).map (sdURL name) ∧
    (fetchedUrls (siteDossierQuery s name srcName).2).length ≤ 19 := by
  have hmain : fetchedUrls (siteDossierQuery s name srcName).2 =
      ((List.range' 1 19).take (sdOKRun s name (List.range' 1 19) + 1)).map (sdURL name) := by
    unfold siteDossierQuery
    rcases hq : sdGo s name (List.range' 1 19) [] [] with ⟨subs, tr⟩
    have := sdGo_fetchedUrls s name (List.range' 1 19) [] []
    rw [hq] at this
    simpa [hq, fetchedUrls] using this
  refine ⟨hmain, ?_⟩
  rw [hmain]
  simp only [List.length_map, List.length_take, List.length_range']
  exact Nat.min_le_right _ _

/-- C5 (amended): in the DuckDuckGo, crt.sh, SecurityTrails and SiteDossier
query loops every raw candidate is normalized (lowercased and trimmed, with
the wildcard label stripped where applicable) before it reaches the Scope
Filter and before insertion; in the Chaos query loop only the wildcard label
is stripped before the scope check — the value handed to the Scope Filter is
the un-lowercased, un-trimmed candidate. -/
theorem scopeCheckNormalizationPolicy :
    (∀ (s : Session) (raws : List String) (acc : List String × List Act),
      scopeVals ((raws.foldl (ddgProcess s) acc).2) =
        scopeVals acc.2 ++ raws.map (fun n => goToLower (goTrimSpace n))) ∧
    (∀ (s : Session) (raws : List String) (acc : List String × List Act),
      scopeVals ((raws.foldl (crtshProcess s) acc).2) =
        scopeVals acc.2 ++ raws.map (fun n =>
          goToLower (goTrimSpace (removeAsteriskLabel n)))) ∧
    (∀ (s : Session) (name : String) (raws : List String) (acc : List String × List Act),
      scopeVals ((raws.foldl (stProcess s name) acc).2) =
        scopeVals acc.2 ++ raws.map (fun sub =>
          goToLower (goTrimSpace (removeAsteriskLabel (sub ++ "." ++ name))))) ∧
    (∀ (s : Session) (raws : List String) (acc : List String × List Act),
      scopeVals ((raws.foldl (sdProcess s) acc).2) =
        scopeVals acc.2 ++ raws.map (fun n => goToLower (goTrimSpace n))) ∧
    (∀ (s : Session) (name : String) (raws : List String) (acc : List String × List Act),
      scopeVals ((raws.foldl (chaosProcess s name) acc).2) =
        scopeVals acc.2 ++ raws.map (fun sub => removeAsteriskLabel (sub ++ "." ++ name))) :=
  ⟨fun s => fold_scopeVals (ddgProcess s) _ (ddgProcess_trace s),
   fun s => fold_scopeVals (crtshProcess s) _ (crtshProcess_trace s),
   fun s name => fold_scopeVals (stProcess s name) _ (stProcess_trace s name),
   fun s => fold_scopeVals (sdProcess s) _ (sdProcess_trace s),
   fun s name => fold_scopeVals (chaosProcess s name) _ (chaosProcess_trace s name)⟩

/-- The chaos credential loop performs exactly one retrieval per key. -/
theorem chaosFold_fetchCount (s : Session) (name : String) :
    ∀ (keys : List String) (acc : List String × List Act),
      ((keys.foldl (chaosKeyStep s name) acc).2).countP Act.isFetch =
        acc.2.countP Act.isFetch + keys.length := by
  intro keys
  induction keys with
  | nil => intro acc; simp
  | cons k rest ih =>
    intro acc
    simp only [List.foldl_cons, List.length_cons]
    rw [ih (chaosKeyStep s name acc k), chaosKeyStep_fetchCount]
    omega

/-- The securityTrails credential loop tries each key in turn: every failing
key (transport error, empty body, or unmarshal error) contributes exactly one
retrieval and the loop falls through to the next key; the first succeeding
key contributes exactly one retrieval and the loop stops there. -/
theorem stGo_fetchCount (s : Session) (name : String) :
    ∀ keys : List String,
      ((stGo s name keys).2).countP Act.isFetch = stTriedCount s name keys := by
  intro keys
  induction keys with
  | nil => rfl
  | cons key rest ih =>
    unfold stGo stTriedCount stKeySucceeds
    cases hh : s.http ⟨stURL name, [("APIKEY", key)]⟩ with
    | none =>
      rcases hr : stGo s name rest with ⟨ns, tr2⟩
      rw [hr] at ih
      simp [List.countP_append, List.countP_cons, Act.isFetch, ih]
    | some resp =>
      cases hb : resp.body == "" with
      | true =>
        rcases hr : stGo s name rest with ⟨ns, tr2⟩
        rw [hr] at ih
        simp [hb, bne, List.countP_append, List.countP_cons, Act.isFetch, ih]
      | false =>
        cases hp : s.parseSubdomains resp.body with
        | none =>
          rcases hr : stGo s name rest with ⟨ns, tr2⟩
          rw [hr] at ih
          simp [hb, hp, bne, List.countP_append, List.countP_cons, Act.isFetch, ih]
        | some subs =>
          simp only [hb, hp, bne, Bool.false_eq_true, if_false]
          rw [fold_fetchCount (stProcess s name) _ (stProcess_trace s name)]
          simp [List.countP_cons, Act.isFetch]

/-- C6 (amended): `securityTrails.query` tries each credential in turn,
performing one retrieval per failing credential, and stops at the first
credential whose retrieval yields a non-empty, parseable result, performing
no further retrievals with the remaining credentials (its retrieval count is
exactly the number of credentials tried up to and including the first
success, capped at the credential count when none succeeds); `chaos.query`
instead performs one retrieval per configured credential, with no early
exit. -/
theorem credentialIterationPolicy :
    (∀ (s : Session) (name srcName : String) (keys : List String),
      ((chaosQuery s name srcName keys).2).countP Act.isFetch = keys.length) ∧
    (∀ (s : Session) (name srcName : String) (keys : List String),
      ((securityTrailsQuery s name srcName keys).2).countP Act.isFetch =
        stTriedCount s name keys) ∧
    (∀ (s : Session) (name : String) (keys : List String),
      stTriedCount s name keys ≤ keys.length) ∧
    (∀ (s : Session) (name key : String) (keys : List String),
      stKeySucceeds s name key = true → stTriedCount s name (key :: keys) = 1) ∧
    (∀ (s : Session) (name key : String) (keys : List String),
      stKeySucceeds s name key = false →
        stTriedCount s name (key :: keys) = stTriedCount s name keys + 1) := by
  refine ⟨?_, ?_, ?_, ?_, ?_⟩
  · intro s name srcName keys
    unfold chaosQuery
    dsimp only
    rw [List.countP_append, chaosFold_fetchCount]
    simp [List.countP_cons, Act.isFetch]
  · intro s name srcName keys
    unfold securityTrailsQuery
    dsimp only
    rw [List.countP_append, stGo_fetchCount]
    simp [List.countP_cons, Act.isFetch]
  · intro s name keys
    induction keys with
    | nil => exact Nat.le_refl 0
    | cons key rest ih =>
      unfold stTriedCount
      cases stKeySucceeds s name key
      · simpa using Nat.succ_le_succ ih
      · simp
  · intro s name key keys h
    simp [stTriedCount, h]
  · intro s name key keys h
    simp [stTriedCount, h]

/-- C6 witness: concretely, a succeeding first credential stops the
SecurityTrails loop after one retrieval even though a second credential is
configured, while on a session whose retrievals all fail the loop falls
through the first credential and tries the next; the chaos query retrieves
once per credential. -/
theorem credentialIterationPolicy_witness :
    ((securityTrailsQuery sessChaos "example.com" "SecurityTrails" ["k1", "k2"]).2).countP
        Act.isFetch = stTriedCount sessChaos "example.com" ["k1", "k2"] ∧
    stTriedCount sessChaos "example.com" ["k1", "k2"] = 1 ∧
    ((securityTrailsQuery sessBase "example.com" "SecurityTrails" ["k1", "k2"]).2).countP
        Act.isFetch = stTriedCount sessBase "example.com" ["k1", "k2"] ∧
    stTriedCount sessBase "example.com" ["k1", "k2"] =
      stTriedCount sessBase "example.com" ["k2"] + 1 ∧
    ((chaosQuery sessChaos "example.com" "Chaos" ["k1", "k2"]).2).countP Act.isFetch = 2 :=
  ⟨credentialIterationPolicy.2.1 sessChaos "example.com" "SecurityTrails" ["k1", "k2"],
   credentialIterationPolicy.2.2.2.1 sessChaos "example.com" "k1" ["k2"] (by decide),
   credentialIterationPolicy.2.1 sessBase "example.com" "SecurityTrails" ["k1", "k2"],
   credentialIterationPolicy.2.2.2.2 sessBase "example.com" "k1" ["k2"] (by decide),
   credentialIterationPolicy.1 sessChaos "example.com" "Chaos" ["k1", "k2"]⟩

/-- Decomposition of a passing scope guard into the two boolean conditions
the checks test. -/
theorem scopeAccepts_parts (s : Session) (f : String) (h : scopeAccepts s f = true) :
    ((s.scope f).conf == 0 || (s.scope f).canonical.isNone) = false ∧
      canonicalFqdnMatches f (s.scope f).canonical = true := by
  unfold scopeAccepts at h
  rw [Bool.and_eq_true] at h
  exact ⟨by simpa using h.1, h.2⟩

/-- Out of scope means a clean no-op for `duckDuckGo.check`. -/
theorem ddg_outOfScope (s : Session) (f : String) (h : scopeAccepts s f = false) :
    cleanNoop s (duckDuckGoCheck s (OAMAsset.fqdn f)) := by
  unfold scopeAccepts at h
  simp only [duckDuckGoCheck]
  cases hb : ((s.scope f).conf == 0 || (s.scope f).canonical.isNone) with
  | true => exact ⟨rfl, rfl, rfl⟩
  | false =>
    cases hm : canonicalFqdnMatches f (s.scope f).canonical with
    | false => exact ⟨rfl, rfl, rfl⟩
    | true =>
      rw [hb, hm] at h
      simp at h

/-- Out of scope means a clean no-op for `crtsh.check`. -/
theorem crtsh_outOfScope (s : Session) (f : String) (h : scopeAccepts s f = false) :
    cleanNoop s (crtshCheck s (OAMAsset.fqdn f)) := by
  unfold scopeAccepts at h
  simp only [crtshCheck]
  cases hb : ((s.scope f).conf == 0 || (s.scope f).canonical.isNone) with
  | true => exact ⟨rfl, rfl, rfl⟩
  | false =>
    cases hm : canonicalFqdnMatches f (s.scope f).canonical with
    | false => exact ⟨rfl, rfl, rfl⟩
    | true =>
      rw [hb, hm] at h
      simp at h

/-- Out of scope means a clean no-op for `siteDossier.check`. -/
theorem sd_outOfScope (s : Session) (f : String) (h : scopeAccepts s f = false) :
    cleanNoop s (siteDossierCheck s (OAMAsset.fqdn f)) := by
  unfold scopeAccepts at h
  simp only [siteDossierCheck]
  cases hb : ((s.scope f).conf == 0 || (s.scope f).canonical.isNone) with
  | true => exact ⟨rfl, rfl, rfl⟩
  | false =>
    cases hm : canonicalFqdnMatches f (s.scope f).canonical with
    | false => exact ⟨rfl, rfl, rfl⟩
    | true =>
      rw [hb, hm] at h
      simp at h

/-- Out of scope means a clean no-op for `chaos.check` (whether or not
credentials are configured). -/
theorem chaos_outOfScope (s : Session) (f : String) (h : scopeAccepts s f = false) :
    cleanNoop s (chaosCheck s (OAMAsset.fqdn f)) := by
  unfold scopeAccepts at h
  simp only [chaosCheck]
  cases s.dsCreds "Chaos" with
  | none => exact ⟨rfl, rfl, rfl⟩
  | some creds =>
    dsimp only
    cases hemp : creds.isEmpty with
    | true => exact ⟨rfl, rfl, rfl⟩
    | false =>
      cases hb : ((s.scope f).conf == 0 || (s.scope f).canonical.isNone) with
      | true => exact ⟨rfl, rfl, rfl⟩
      | false =>
        cases hm : canonicalFqdnMatches f (s.scope f).canonical with
        | false => exact ⟨rfl, rfl, rfl⟩
        | true =>
          rw [hb, hm] at h
          simp at h

/-- Out of scope means a clean no-op for `securityTrails.check` (whether or
not credentials are configured). -/
theorem st_outOfScope (s : Session) (f : String) (h : scopeAccepts s f = false) :
    cleanNoop s (securityTrailsCheck s (OAMAsset.fqdn f)) := by
  unfold scopeAccepts at h
  simp only [securityTrailsCheck]
  cases s.dsCreds "SecurityTrails" with
  | none => exact ⟨rfl, rfl, rfl⟩
  | some creds =>
    dsimp only
    cases hemp : creds.isEmpty with
    | true => exact ⟨rfl, rfl, rfl⟩
    | false =>
      cases hb : ((s.scope f).conf == 0 || (s.scope f).canonical.isNone) with
      | true => exact ⟨rfl, rfl, rfl⟩
      | false =>
        cases hm : canonicalFqdnMatches f (s.scope f).canonical with
        | false => exact ⟨rfl, rfl, rfl⟩
        | true =>
          rw [hb, hm] at h
          simp at h

/-- C1: for every inbound FQDN event whose subject is out of scope (the Scope
Filter returns confidence 0 or a nil canonical asset) or whose canonical
asset does not match the subject by exact case-insensitive identity, each
plugin check terminates with a nil error and performs no external retrieval,
no rate-limiter acquisition, no graph-mutation submission, and emits zero
findings; the freshness records are untouched. -/
theorem outOfScopeNoop (s : Session) (f : String) (h : scopeAccepts s f = false) :
    cleanNoop s (duckDuckGoCheck s (OAMAsset.fqdn f)) ∧
    cleanNoop s (crtshCheck s (OAMAsset.fqdn f)) ∧
    cleanNoop s (chaosCheck s (OAMAsset.fqdn f)) ∧
    cleanNoop s (securityTrailsCheck s (OAMAsset.fqdn f)) ∧
    cleanNoop s (siteDossierCheck s (OAMAsset.fqdn f)) :=
  ⟨ddg_outOfScope s f h, crtsh_outOfScope s f h, chaos_outOfScope s f h,
   st_outOfScope s f h, sd_outOfScope s f h⟩

/-- C1 witness: a concrete subject rejected by the scope filter yields clean
no-ops across all five plugin checks. -/
theorem outOfScopeNoop_witness :
    cleanNoop sessDup (duckDuckGoCheck sessDup (OAMAsset.fqdn "other.org")) ∧
    cleanNoop sessDup (crtshCheck sessDup (OAMAsset.fqdn "other.org")) ∧
    cleanNoop sessDup (chaosCheck sessDup (OAMAsset.fqdn "other.org")) ∧
    cleanNoop sessDup (securityTrailsCheck sessDup (OAMAsset.fqdn "other.org")) ∧
    cleanNoop sessDup (siteDossierCheck sessDup (OAMAsset.fqdn "other.org")) :=
  outOfScopeNoop sessDup "other.org" (by decide)

/-- Missing TTL policy aborts `duckDuckGo.check` before branch, retrieval, or
mutation. -/
theorem ddg_ttlMissing (s : Session) (f : String)
    (hacc : scopeAccepts s f = true) (hsrc : s.srcAvail "DuckDuckGo" = true)
    (httl : s.ttl "FQDN" "FQDN" "DuckDuckGo" = none) :
    duckDuckGoCheck s (OAMAsset.fqdn f) =
      (Except.error "config ttl missing",
        [Act.scopeQuery f, Act.ttlLookup "FQDN" "FQDN" "DuckDuckGo"], s.monitored) := by
  obtain ⟨hb, hm⟩ := scopeAccepts_parts s f hacc
  simp only [duckDuckGoCheck]
  rw [hb, hm, hsrc]
  unfold ttlStartTime
  rw [httl]
  rfl

/-- Missing TTL policy aborts `crtsh.check` before branch, retrieval, or
mutation. -/
theorem crtsh_ttlMissing (s : Session) (f : String)
    (hacc : scopeAccepts s f = true) (hsrc : s.srcAvail crtshSourceName = true)
    (httl : s.ttl "FQDN" "FQDN" crtshName = none) :
    crtshCheck s (OAMAsset.fqdn f) =
      (Except.error "config ttl missing",
        [Act.scopeQuery f, Act.ttlLookup "FQDN" "FQDN" crtshName], s.monitored) := by
  obtain ⟨hb, hm⟩ := scopeAccepts_parts s f hacc
  simp only [crtshCheck]
  rw [hb, hm, hsrc]
  unfold ttlStartTime
  rw [httl]
  rfl

/-- Missing TTL policy aborts `siteDossier.check` before branch, retrieval,
or mutation. -/
theorem sd_ttlMissing (s : Session) (f : String)
    (hacc : scopeAccepts s f = true) (hsrc : s.srcAvail "SiteDossier" = true)
    (httl : s.ttl "FQDN" "FQDN" "SiteDossier" = none) :
    siteDossierCheck s (OAMAsset.fqdn f) =
      (Except.error "config ttl missing",
        [Act.scopeQuery f, Act.ttlLookup "FQDN" "FQDN" "SiteDossier"], s.monitored) := by
  obtain ⟨hb, hm⟩ := scopeAccepts_parts s f hacc
  simp only [siteDossierCheck]
  rw [hb, hm, hsrc]
  unfold ttlStartTime
  rw [httl]
  rfl

/-- Missing TTL policy aborts `chaos.check` before branch, retrieval, or
mutation (when credentials exist so the check reaches the TTL decision). -/
theorem chaos_ttlMissing (s : Session) (f : String) (creds : List (Option String))
    (hds : s.dsCreds "Chaos" = some creds) (hemp : creds.isEmpty = false)
    (hacc : scopeAccepts s f = true) (hsrc : s.srcAvail "Chaos" = true)
    (httl : s.ttl "FQDN" "FQDN" "Chaos" = none) :
    chaosCheck s (OAMAsset.fqdn f) =
      (Except.error "config ttl missing",
        [Act.scopeQuery f, Act.ttlLookup "FQDN" "FQDN" "Chaos"], s.monitored) := by
  obtain ⟨hb, hm⟩ := scopeAccepts_parts s f hacc
  simp only [chaosCheck]
  rw [hds]
  dsimp only
  rw [hemp, hb, hm, hsrc]
  unfold ttlStartTime
  rw [httl]
  rfl

/-- Missing TTL policy aborts `securityTrails.check` before branch,
retrieval, or mutation (when credentials exist). -/
theorem st_ttlMissing (s : Session) (f : String) (creds : List (Option String))
    (hds : s.dsCreds "SecurityTrails" = some creds) (hemp : creds.isEmpty = false)
    (hacc : scopeAccepts s f = true) (hsrc : s.srcAvail "SecurityTrails" = true)
    (httl : s.ttl "FQDN" "FQDN" "SecurityTrails" = none) :
    securityTrailsCheck s (OAMAsset.fqdn f) =
      (Except.error "config ttl missing",
        [Act.scopeQuery f, Act.ttlLookup "FQDN" "FQDN" "SecurityTrails"], s.monitored) := by
  obtain ⟨hb, hm⟩ := scopeAccepts_parts s f hacc
  simp only [securityTrailsCheck]
  rw [hds]
  dsimp only
  rw [hemp, hb, hm, hsrc]
  unfold ttlStartTime
  rw [httl]
  rfl

/-- With no TTL policy configured, the autnum preparation loop skips every
transform (`continue`) instead of aborting: no since entries and no relation
kinds are collected. -/
theorem autnumPrep_skip (now : ℕ) (pluginName : String) (mset : List String) :
    ∀ (transforms : List String) (acc : List (String × ℕ) × List String × List Act),
      (transforms.foldl (autnumPrepStep cfgNoTTL now pluginName mset) acc).1 = acc.1 ∧
      (transforms.foldl (autnumPrepStep cfgNoTTL now pluginName mset) acc).2.1 = acc.2.1 := by
  intro transforms
  induction transforms with
  | nil => intro acc; exact ⟨rfl, rfl⟩
  | cons t rest ih =>
    intro acc
    have hstep : (autnumPrepStep cfgNoTTL now pluginName mset acc t).1 = acc.1 ∧
        (autnumPrepStep cfgNoTTL now pluginName mset acc t).2.1 = acc.2.1 := by
      unfold autnumPrepStep
      cases mset.contains t <;> exact ⟨rfl, rfl⟩
    simp only [List.foldl_cons]
    obtain ⟨ih1, ih2⟩ := ih (autnumPrepStep cfgNoTTL now pluginName mset acc t)
    exact ⟨ih1.trans hstep.1, ih2.trans hstep.2⟩

/-- C8 (amended): in the five FQDN plugin checks a missing TTL policy aborts
the invocation with the configuration error before any branch decision,
external retrieval, or mutation; in the rdap autnum lookup a missing TTL
policy for a transform is skipped, and the lookup proceeds without error,
still submitting its mutation closure to the serialized queue. -/
theorem ttlMissingPolicy :
    (∀ (s : Session) (f : String), scopeAccepts s f = true →
      s.srcAvail "DuckDuckGo" = true → s.ttl "FQDN" "FQDN" "DuckDuckGo" = none →
      duckDuckGoCheck s (OAMAsset.fqdn f) =
        (Except.error "config ttl missing",
          [Act.scopeQuery f, Act.ttlLookup "FQDN" "FQDN" "DuckDuckGo"], s.monitored)) ∧
    (∀ (s : Session) (f : String), scopeAccepts s f = true →
      s.srcAvail crtshSourceName = true → s.ttl "FQDN" "FQDN" crtshName = none →
      crtshCheck s (OAMAsset.fqdn f) =
        (Except.error "config ttl missing",
          [Act.scopeQuery f, Act.ttlLookup "FQDN" "FQDN" crtshName], s.monitored)) ∧
    (∀ (s : Session) (f : String) (creds : List (Option String)),
      s.dsCreds "Chaos" = some creds → creds.isEmpty = false →
      scopeAccepts s f = true → s.srcAvail "Chaos" = true →
      s.ttl "FQDN" "FQDN" "Chaos" = none →
      chaosCheck s (OAMAsset.fqdn f) =
        (Except.error "config ttl missing",
          [Act.scopeQuery f, Act.ttlLookup "FQDN" "FQDN" "Chaos"], s.monitored)) ∧
    (∀ (s : Session) (f : String) (creds : List (Option String)),
      s.dsCreds "SecurityTrails" = some creds → creds.isEmpty = false →
      scopeAccepts s f = true → s.srcAvail "SecurityTrails" = true →
      s.ttl "FQDN" "FQDN" "SecurityTrails" = none →
      securityTrailsCheck s (OAMAsset.fqdn f) =
        (Except.error "config ttl missing",
          [Act.scopeQuery f, Act.ttlLookup "FQDN" "FQDN" "SecurityTrails"], s.monitored)) ∧
    (∀ (s : Session) (f : String), scopeAccepts s f = true →
      s.srcAvail "SiteDossier" = true → s.ttl "FQDN" "FQDN" "SiteDossier" = none →
      siteDossierCheck s (OAMAsset.fqdn f) =
        (Except.error "config ttl missing",
          [Act.scopeQuery f, Act.ttlLookup "FQDN" "FQDN" "SiteDossier"], s.monitored)) ∧
    (∀ (now : ℕ) (pluginName : String) (mset transforms : List String)
        (acc : List (String × ℕ) × List String × List Act),
      (transforms.foldl (autnumPrepStep cfgNoTTL now pluginName mset) acc).1 = acc.1 ∧
      (transforms.foldl (autnumPrepStep cfgNoTTL now pluginName mset) acc).2.1 = acc.2.1) ∧
    (∀ (ttl : String → String → String → Option Nat) (now : ℕ) (db : DB)
        (transforms : List String) (pluginName : String) (asset : DBAsset)
        (srcId : ℕ) (mset : List String),
      Act.dbSubmit ∈ (autnumLookup ttl now false db transforms pluginName asset srcId mset).2) := by
  refine ⟨ddg_ttlMissing, crtsh_ttlMissing, ?_, ?_, sd_ttlMissing, ?_, ?_⟩
  · intro s f creds hds hemp hacc hsrc httl
    exact chaos_ttlMissing s f creds hds hemp hacc hsrc httl
  · intro s f creds hds hemp hacc hsrc httl
    exact st_ttlMissing s f creds hds hemp hacc hsrc httl
  · intro now pluginName mset transforms acc
    exact autnumPrep_skip now pluginName mset transforms acc
  · intro ttl now db transforms pluginName asset srcId mset
    unfold autnumLookup
    rcases hx : transforms.foldl (autnumPrepStep ttl now pluginName mset) ([], [], [])
      with ⟨sinces, rtypes, tr0⟩
    rcases hy : autnumLookupBody false db sinces rtypes asset srcId with ⟨fs, db2, ops⟩
    simp [hx, hy]

/-- C8 witness: on a concrete session accepting `example.com` but configured
with no TTL policies, the DuckDuckGo check aborts with the configuration
error, performing nothing else. -/
theorem ttlMissingPolicy_witness :
    duckDuckGoCheck sessNoTTL (OAMAsset.fqdn "example.com") =
      (Except.error "config ttl missing",
        [Act.scopeQuery "example.com", Act.ttlLookup "FQDN" "FQDN" "DuckDuckGo"],
        sessNoTTL.monitored) :=
  ttlMissingPolicy.1 sessNoTTL "example.com" (by decide) rfl rfl

/-- The fresh branch of `duckDuckGo.check`: only the graph lookup runs. -/
theorem ddg_freshPath (s : Session) (f : String) (t : ℕ)
    (hacc : scopeAccepts s f = true) (hsrc : s.srcAvail "DuckDuckGo" = true)
    (httl : s.ttl "FQDN" "FQDN" "DuckDuckGo" = some t)
    (hfresh : assetMonitoredWithinTTL s f "DuckDuckGo" (s.now - t) = true) :
    duckDuckGoCheck s (OAMAsset.fqdn f) =
      (Except.ok (),
        [Act.scopeQuery f, Act.ttlLookup "FQDN" "FQDN" "DuckDuckGo",
         Act.monitorCheck f "DuckDuckGo"] ++
          emitIfAny (s.lookupAssets f "FQDN" "DuckDuckGo" (s.now - t)),
        s.monitored) := by
  obtain ⟨hb, hm⟩ := scopeAccepts_parts s f hacc
  simp only [duckDuckGoCheck]
  rw [hb, hm, hsrc]
  unfold ttlStartTime
  rw [httl]
  dsimp only [Option.map]
  rw [hfresh]
  rfl

/-- C3: when the subject is already freshly monitored by the source
(`AssetMonitoredWithinTTL` true), the DuckDuckGo invocation takes only the
lookup path: the trace is exactly the scope query, the TTL lookup, the
freshness check, and the emission of the previously persisted assets
returned by the graph read — no external retrieval and no rate-limiter
acquisition occur, and the freshness records are unchanged. -/
theorem freshPathNoRetrieval (s : Session) (f : String) (t : ℕ)
    (hacc : scopeAccepts s f = true) (hsrc : s.srcAvail "DuckDuckGo" = true)
    (httl : s.ttl "FQDN" "FQDN" "DuckDuckGo" = some t)
    (hfresh : assetMonitoredWithinTTL s f "DuckDuckGo" (s.now - t) = true) :
    duckDuckGoCheck s (OAMAsset.fqdn f) =
      (Except.ok (),
        [Act.scopeQuery f, Act.ttlLookup "FQDN" "FQDN" "DuckDuckGo",
         Act.monitorCheck f "DuckDuckGo"] ++
          emitIfAny (s.lookupAssets f "FQDN" "DuckDuckGo" (s.now - t)),
        s.monitored) ∧
    noNetwork (duckDuckGoCheck s (OAMAsset.fqdn f)).2.1 = true := by
  have heq := ddg_freshPath s f t hacc hsrc httl hfresh
  refine ⟨heq, ?_⟩
  rw [heq]
  unfold noNetwork emitIfAny
  split <;> rfl

/-- C3 witness: a concrete freshly-monitored subject takes the lookup path,
emitting the previously persisted asset with no retrieval. -/
theorem freshPathNoRetrieval_witness :
    duckDuckGoCheck sessFresh (OAMAsset.fqdn "example.com") =
      (Except.ok (),
        [Act.scopeQuery "example.com", Act.ttlLookup "FQDN" "FQDN" "DuckDuckGo",
         Act.monitorCheck "example.com" "DuckDuckGo"] ++
          emitIfAny (sessFresh.lookupAssets "example.com" "FQDN" "DuckDuckGo"
            (sessFresh.now - 24)),
        sessFresh.monitored) ∧
    noNetwork (duckDuckGoCheck sessFresh (OAMAsset.fqdn "example.com")).2.1 = true :=
  freshPathNoRetrieval sessFresh "example.com" 24 (by decide) rfl rfl (by decide)

/-- C10: in the non-fresh branch, `MarkAssetMonitored` runs unconditionally
after the query step, even when the retrieval failed: the check succeeds, the
trace records the freshness write but no store submission, the freshness edge
is refreshed to now — and any later invocation whose freshness window still
covers that timestamp takes the reuse path, performing no retrieval and no
rate-limiter acquisition. -/
theorem markMonitoredDespiteFailedQuery (s : Session) (f : String) (t now2 : ℕ)
    (hacc : scopeAccepts s f = true)
    (hsrc : s.srcAvail "DuckDuckGo" = true)
    (httl : s.ttl "FQDN" "FQDN" "DuckDuckGo" = some t)
    (hstale : assetMonitoredWithinTTL s f "DuckDuckGo" (s.now - t) = false)
    (hfail : s.http ⟨ddgURL f, []⟩ = none)
    (hlater : now2 - t ≤ s.now) :
    duckDuckGoCheck s (OAMAsset.fqdn f) =
      (Except.ok (),
        [Act.scopeQuery f, Act.ttlLookup "FQDN" "FQDN" "DuckDuckGo",
         Act.monitorCheck f "DuckDuckGo", Act.take, Act.fetch (ddgURL f),
         Act.markMonitored f "DuckDuckGo"],
        (f, "DuckDuckGo", s.now) :: s.monitored) ∧
    noNetwork (duckDuckGoCheck
        { s with monitored := (f, "DuckDuckGo", s.now) :: s.monitored, now := now2 }
        (OAMAsset.fqdn f)).2.1 = true := by
  constructor
  · obtain ⟨hb, hm⟩ := scopeAccepts_parts s f hacc
    simp only [duckDuckGoCheck]
    rw [hb, hm, hsrc]
    unfold ttlStartTime
    rw [httl]
    dsimp only [Option.map]
    rw [hstale]
    unfold duckDuckGoQuery
    rw [hfail]
    rfl
  · have hfresh2 : assetMonitoredWithinTTL
        { s with monitored := (f, "DuckDuckGo", s.now) :: s.monitored, now := now2 }
        f "DuckDuckGo" (now2 - t) = true := by
      unfold assetMonitoredWithinTTL
      simp [Nat.ble_eq, hlater]
    have heq := ddg_freshPath
      { s with monitored := (f, "DuckDuckGo", s.now) :: s.monitored, now := now2 }
      f t hacc hsrc httl hfresh2
    rw [heq]
    unfold noNetwork emitIfAny
    split <;> rfl

/-- C10 witness: concretely, with no freshness record and a failing
retrieval, the check still refreshes the freshness record, and an invocation
ten hours later (within the 24-hour window) performs no retrieval. -/
theorem markMonitoredDespiteFailedQuery_witness :
    duckDuckGoCheck sessBase (OAMAsset.fqdn "example.com") =
      (Except.ok (),
        [Act.scopeQuery "example.com", Act.ttlLookup "FQDN" "FQDN" "DuckDuckGo",
         Act.monitorCheck "example.com" "DuckDuckGo", Act.take,
         Act.fetch (ddgURL "example.com"),
         Act.markMonitored "example.com" "DuckDuckGo"],
        ("example.com", "DuckDuckGo", sessBase.now) :: sessBase.monitored) ∧
    noNetwork (duckDuckGoCheck
        { sessBase with
          monitored := ("example.com", "DuckDuckGo", sessBase.now) :: sessBase.monitored,
          now := 110 }
        (OAMAsset.fqdn "example.com")).2.1 = true :=
  markMonitoredDespiteFailedQuery sessBase "example.com" 24 110 (by decide) rfl rfl
    (by decide) rfl (by decide)

/-- C8 counterexample: an rdap autnum invocation whose configuration has no
TTL policy at all does not abort with an error: the check returns nil and
the lookup mutation is still submitted to the serialized queue. -/
theorem autnumMissingTTLProceeds :
    cfgNoTTL "AutnumRecord" "URL" "RDAP" = none ∧
    isOk (autnumCheck cfgNoTTL 100 false ⟨[], []⟩ (fun _ => ⟨none, 0⟩) ["URL"] "RDAP"
        autnumEntity true 2 (some ["URL"]) none).1 = true ∧
    Act.dbSubmit ∈ (autnumCheck cfgNoTTL 100 false ⟨[], []⟩ (fun _ => ⟨none, 0⟩)
        ["URL"] "RDAP" autnumEntity true 2 (some ["URL"]) none).2.2.2 := by decide
